import Mathlib

/-!
# Around: post ingestion, retrieval and credential checks

A shallow embedding of `main.go`, `user.go` and `vision.go`.

Conventions of the embedding.

* Go strings are Lean strings; the only byte-level scans in the code look for the ASCII
  characters `.` and `/`, which never occur inside a multi-byte UTF-8 sequence, so scanning
  characters and scanning bytes agree.
* `float32`/`float64` values are modelled by exact rationals (`Num`).
* A Go result pair `(v, err)` is an `Except Err _`; a bare `error` is an `Option Err`.
* Every call that leaves the process (object store, vision service, search index, id
  generator) is answered by an `Env`: each answer may depend on the arguments and on the whole
  sequence of external calls made before it.  Handlers return their reply together with the
  sequence of external calls they made, oldest first.
-/

namespace Around

/-! ## Constants (`main.go` 23-30, `user.go` 15-17) -/

def POST_INDEX : String := "post"
def DISTANCE : String := "200km"
def ES_URL : String := "http://10.128.0.2:9200"
def BUCKET_NAME : String := "jiawei-bucket"
def USER_INDEX : String := "user"

/-! ## Media classification (`main.go` 32-45, 137-144) -/

/-- The table `mediaTypes` of `main.go`, as the list of its key/value pairs. -/
def mediaTypes : List (String × String) :=
  [ (".jpeg", "image"),
    (".jpg", "image"),
    (".gif", "image"),
    (".png", "image"),
    (".mov", "video"),
    (".mp4", "video"),
    (".avi", "video"),
    (".flv", "video"),
    (".wmv", "video") ]

/-- The loop of Go's `filepath.Ext`, `for i := len(path)-1; i >= 0 && path[i] != '/'; i--`.
The first argument is `path[0..i]` reversed (its head is `path[i]`), the second is
`path[i+1:]`. -/
def extScan : List Char → List Char → List Char
  | [], _ => []
  | c :: before, after =>
    if c = '/' then []
    else if c = '.' then c :: after
    else extScan before (c :: after)

/-- Go's `filepath.Ext` (path separator `/`). -/
def Ext (path : String) : String :=
  ⟨extScan path.data.reverse []⟩

/-- Lines 137-144 of `handlerPost`: the `Type` given to the post from the uploaded
file's name. -/
def mediaKind (filename : String) : String :=
  match mediaTypes.lookup (Ext filename) with
  | some t => t
  | none => "unknown"

/-- The last path element of a path: what follows its last `/`. -/
def lastElement (path : List Char) : List Char :=
  (path.reverse.takeWhile (fun c => c ≠ '/')).reverse

/-! ## Data model (`main.go` 47-60, `user.go` 19-24) -/

/-- Floating-point values, modelled by exact rationals. -/
abbrev Num := ℚ

/-- A Go `error` value, identified by its message. -/
abbrev Err := String

/-- The content of an uploaded file. -/
abbrev Bytes := List Nat

structure Location where
  lat : Num
  lon : Num
deriving DecidableEq

structure Post where
  user : String
  message : String
  location : Location
  url : String
  type : String
  face : Num
deriving DecidableEq

structure User where
  username : String
  password : String
  age : Int
  gender : String
deriving DecidableEq

/-- The zero value of `Post` (what `reflect.New(typ).Elem()` holds). -/
def zeroPost : Post := ⟨"", "", ⟨0, 0⟩, "", "", 0⟩

/-- The zero value of `User`. -/
def zeroUser : User := ⟨"", "", 0, ""⟩

/-- A Go slice: `none` is the nil slice, `some l` a non-nil slice with elements `l`. -/
abbrev Slice (α : Type) := Option (List α)

/-- Go's `append(s, x)`. -/
def goAppend {α : Type} (s : Slice α) (x : α) : Slice α :=
  match s with
  | none => some [x]
  | some l => some (l ++ [x])

/-- The elements of a slice (`len` of a nil slice is 0). -/
def Slice.elems {α : Type} (s : Slice α) : List α :=
  match s with
  | none => []
  | some l => l

/-! ## The search-index client library's values -/

/-- The queries the handlers build with `olivere/elastic`. -/
inductive Query where
  /-- The library's `RangeQuery{name, from, to, includeLower, includeUpper}`. -/
  | range (name : String) (lo hi : Option Num) (includeLower includeUpper : Bool)
  /-- The library's `TermQuery{name, value}`. -/
  | term (name value : String)
  /-- The library's `GeoDistanceQuery{name, distance, lat, lon}`. -/
  | geoDistance (name distance : String) (lat lon : Num)
deriving DecidableEq

/-- The library's `elastic.NewRangeQuery(name)`. -/
def NewRangeQuery (name : String) : Query :=
  .range name none none true true

/-- The library's `(*RangeQuery).Gte(from)`: sets the lower bound and makes it inclusive. -/
def Query.Gte (q : Query) (v : Num) : Query :=
  match q with
  | .range name _ hi _ includeUpper => .range name (some v) hi true includeUpper
  | q => q

/-- The library's `elastic.NewTermQuery(name, value)`. -/
def NewTermQuery (name value : String) : Query :=
  .term name value

/-- The library's `elastic.NewGeoDistanceQuery(name).Distance(d).Lat(lat).Lon(lon)`. -/
def NewGeoDistanceQuery (name distance : String) (lat lon : Num) : Query :=
  .geoDistance name distance lat lon

/-- One hit of a search result: its raw `_source`, if it has one. -/
structure Hit where
  source : Option String
deriving DecidableEq

/-- The library's `elastic.SearchResult`: the total number of matching documents and the hits
returned. -/
structure SearchResult where
  totalHits : Nat
  hits : List Hit
deriving DecidableEq

/-- The library's `(*SearchResult).Each(typ)`: a hit without source gives the zero value, a hit
whose source does not unmarshal into the type is skipped. -/
def Each {α : Type} (zero : α) (unmarshal : String → Option α) (r : SearchResult) : List α :=
  r.hits.filterMap fun hit =>
    match hit.source with
    | none => some zero
    | some src => unmarshal src

/-- The library's `(*SearchResult).TotalHits()`. -/
def SearchResult.TotalHits (r : SearchResult) : Nat := r.totalHits

/-- A document handed to the index (`BodyJson`). -/
inductive Doc where
  | post (p : Post)
  | user (u : User)
deriving DecidableEq

/-! ## External calls -/

/-- The calls that leave the process. -/
inductive Call where
  /-- Call of `uuid.New()`. -/
  | uuidNew
  /-- Call of `storage.NewClient(ctx)`. -/
  | storageNewClient
  /-- Call of `bucket.Attrs(ctx)`. -/
  | bucketAttrs (bucket : String)
  /-- Call of `io.Copy(wc, r)` into the writer of an object. -/
  | writerCopy (bucket object : String) (content : Bytes)
  /-- Call of `wc.Close()`. -/
  | writerClose (bucket object : String)
  /-- Call of `object.ACL().Set(ctx, storage.AllUsers, storage.RoleReader)`. -/
  | aclSetAllUsersReader (bucket object : String)
  /-- Call of `object.Attrs(ctx)`. -/
  | objectAttrs (bucket object : String)
  /-- Call of `vision.NewImageAnnotatorClient(ctx)`. -/
  | visionNewClient
  /-- Call of `client.DetectFaces(ctx, image, nil, maxResults)` on the image at `uri`. -/
  | detectFaces (uri : String) (maxResults : Nat)
  /-- The deferred `client.Close()` of `annotate`. -/
  | visionClose
  /-- Call of `elastic.NewClient(elastic.SetURL(url))`. -/
  | esNewClient (url : String)
  /-- Call of `client.Search().Index(index).Query(query).Pretty(true).Do(ctx)`. -/
  | esSearch (index : String) (query : Query)
  /-- Call of `client.Index().Index(index).Id(id).BodyJson(body).Do(ctx)`. -/
  | esIndex (index id : String) (body : Doc)
deriving DecidableEq

/-- The external calls made so far, oldest first. -/
abbrev Trace := List Call

/-- The world outside the handlers.  The first group are pure standard-library functions the
code relies on; every other field answers one kind of external call, given the calls made
before it. -/
structure Env where
  /-- The value `strconv.ParseFloat(s, 64)` returns (the code drops its error). -/
  parseFloat : String → Num
  /-- Go's `json.Marshal` of one `Post`. -/
  marshalPost : Post → Except Err String
  /-- Go's `json.Unmarshal` of a hit source into a `Post`. -/
  unmarshalPost : String → Option Post
  /-- Go's `json.Unmarshal` of a hit source into a `User`. -/
  unmarshalUser : String → Option User
  uuidNew : Trace → String
  storageNewClient : Trace → Option Err
  bucketAttrs : Trace → String → Option Err
  writerCopy : Trace → String → String → Bytes → Option Err
  writerClose : Trace → String → String → Option Err
  aclSetAllUsersReader : Trace → String → String → Option Err
  /-- The `MediaLink` of the object's attributes. -/
  objectAttrs : Trace → String → String → Except Err String
  visionNewClient : Trace → Option Err
  /-- The `DetectionConfidence` of each face annotation returned. -/
  detectFaces : Trace → String → Nat → Except Err (List Num)
  esNewClient : Trace → String → Option Err
  esSearch : Trace → String → Query → Except Err SearchResult
  esIndex : Trace → String → String → Doc → Option Err

/-! ## HTTP replies -/

/-- What a handler leaves in its `http.ResponseWriter`. -/
inductive Reply where
  /-- Status code and body; a handler that writes nothing leaves `200` and an empty body. -/
  | sent (status : Nat) (body : String)
  /-- The handler stopped on a failed type assertion and wrote nothing. -/
  | aborted
deriving DecidableEq

/-- Go's `http.Error(w, msg, code)`. -/
def httpError (msg : String) (code : Nat) : Reply :=
  .sent code (msg ++ "\n")

/-- A handler returning without writing. -/
def noContent : Reply := .sent 200 ""

/-- Go's `w.Write(js)` as the only write of a handler. -/
def written (js : String) : Reply := .sent 200 js

/-! ## Kinds of external calls -/

/-- The calls made to the object store. -/
def Call.isStore : Call → Bool
  | .storageNewClient => true
  | .bucketAttrs _ => true
  | .writerCopy _ _ _ => true
  | .writerClose _ _ => true
  | .aclSetAllUsersReader _ _ => true
  | .objectAttrs _ _ => true
  | _ => false

/-- The calls made to the scoring service. -/
def Call.isScorer : Call → Bool
  | .visionNewClient => true
  | .detectFaces _ _ => true
  | .visionClose => true
  | _ => false

/-- The calls made to the search index. -/
def Call.isIndex : Call → Bool
  | .esNewClient _ => true
  | .esSearch _ _ => true
  | .esIndex _ _ _ => true
  | _ => false

/-- The index writes. -/
def Call.isIndexWrite : Call → Bool
  | .esIndex _ _ _ => true
  | _ => false

/-- The calls of a complete, successful `saveToGCS` of `content` under `objectName`. -/
def putCalls (objectName : String) (content : Bytes) : Trace :=
  [ .storageNewClient, .bucketAttrs BUCKET_NAME, .writerCopy BUCKET_NAME objectName content,
    .writerClose BUCKET_NAME objectName, .aclSetAllUsersReader BUCKET_NAME objectName,
    .objectAttrs BUCKET_NAME objectName ]

/-- The calls of an `annotate` that got as far as asking for the faces of `uri`. -/
def scoreCalls (uri : String) : Trace :=
  [ .visionNewClient, .detectFaces uri 1, .visionClose ]

/-- The calls of a `saveToES` that got as far as the write. -/
def upsertCalls (index id : String) (body : Doc) : Trace :=
  [ .esNewClient ES_URL, .esIndex index id body ]

/-- The address `handlerPost` hands to `annotate` for the object named `id`. -/
def gsUri (id : String) : String :=
  "gs://" ++ BUCKET_NAME ++ "/" ++ id

/-! ## Object store (`main.go` 317-368) -/

/-- The function `saveToGCS(r, objectName)`: the external address of the stored object, or the
error of the first step that failed. -/
def saveToGCS (env : Env) (tr : Trace) (r : Bytes) (objectName : String) :
    Except Err String × Trace :=
  match env.storageNewClient tr with
  | some err => (.error err, tr ++ [.storageNewClient])
  | none =>
    let tr := tr ++ [.storageNewClient]
    match env.bucketAttrs tr BUCKET_NAME with
    | some err => (.error err, tr ++ [.bucketAttrs BUCKET_NAME])
    | none =>
      let tr := tr ++ [.bucketAttrs BUCKET_NAME]
      match env.writerCopy tr BUCKET_NAME objectName r with
      | some err => (.error err, tr ++ [.writerCopy BUCKET_NAME objectName r])
      | none =>
        let tr := tr ++ [.writerCopy BUCKET_NAME objectName r]
        match env.writerClose tr BUCKET_NAME objectName with
        | some err => (.error err, tr ++ [.writerClose BUCKET_NAME objectName])
        | none =>
          let tr := tr ++ [.writerClose BUCKET_NAME objectName]
          match env.aclSetAllUsersReader tr BUCKET_NAME objectName with
          | some err => (.error err, tr ++ [.aclSetAllUsersReader BUCKET_NAME objectName])
          | none =>
            let tr := tr ++ [.aclSetAllUsersReader BUCKET_NAME objectName]
            match env.objectAttrs tr BUCKET_NAME objectName with
            | .error err => (.error err, tr ++ [.objectAttrs BUCKET_NAME objectName])
            | .ok mediaLink => (.ok mediaLink, tr ++ [.objectAttrs BUCKET_NAME objectName])

/-! ## Scorer (`vision.go` 16-41) -/

/-- The function `annotate(uri)`. -/
def annotate (env : Env) (tr : Trace) (uri : String) : Except Err Num × Trace :=
  match env.visionNewClient tr with
  | some err => (.error err, tr ++ [.visionNewClient])
  | none =>
    let tr := tr ++ [.visionNewClient]
    match env.detectFaces tr uri 1 with
    | .error err => (.error err, tr ++ [.detectFaces uri 1, .visionClose])
    | .ok faceAnnotations =>
      match faceAnnotations with
      | [] => (.ok 0, tr ++ [.detectFaces uri 1, .visionClose])
      | first :: _ => (.ok first, tr ++ [.detectFaces uri 1, .visionClose])

/-! ## Search index (`main.go` 277-315, 370-393) -/

/-- The function `readFromES(query, index)`. -/
def readFromES (env : Env) (tr : Trace) (query : Query) (index : String) :
    Except Err SearchResult × Trace :=
  match env.esNewClient tr ES_URL with
  | some err => (.error err, tr ++ [.esNewClient ES_URL])
  | none =>
    let tr := tr ++ [.esNewClient ES_URL]
    match env.esSearch tr index query with
    | .error err => (.error err, tr ++ [.esSearch index query])
    | .ok searchResult => (.ok searchResult, tr ++ [.esSearch index query])

/-- The function `saveToES(i, index, id)`. -/
def saveToES (env : Env) (tr : Trace) (i : Doc) (index id : String) : Option Err × Trace :=
  match env.esNewClient tr ES_URL with
  | some err => (some err, tr ++ [.esNewClient ES_URL])
  | none =>
    let tr := tr ++ [.esNewClient ES_URL]
    match env.esIndex tr index id i with
    | some err => (some err, tr ++ [.esIndex index id i])
    | none => (none, tr ++ [.esIndex index id i])

/-- The function `getPostFromSearchResult(searchResult)`: starts from the nil slice
`var posts []Post` and appends every item of `Each`. -/
def getPostFromSearchResult (env : Env) (searchResult : SearchResult) : Slice Post :=
  (Each zeroPost env.unmarshalPost searchResult).foldl (fun posts p => goAppend posts p) none

/-- Go's `json.Marshal` of a `[]Post`: a nil slice is encoded as `null`, any other slice as
the bracketed, comma-separated encodings of its elements. -/
def jsonMarshal (env : Env) (posts : Slice Post) : Except Err String :=
  match posts with
  | none => .ok "null"
  | some l =>
    match l.mapM env.marshalPost with
    | .error err => .error err
    | .ok parts => .ok ("[" ++ ",".intercalate parts ++ "]")

/-! ## Handlers of `main.go` -/

/-- The result of `r.FormFile("image")` when it succeeds: the file and the name in its
header. -/
structure FormFile where
  content : Bytes
  filename : String
deriving DecidableEq

/-- What `handlerPost` reads from its request.  `tokenUsername` is the `username` claim of the
verified token when it is a string, `none` otherwise; `lat`, `lon` and `message` are the form
values; `image` is `none` when `r.FormFile("image")` returns an error. -/
structure PostRequest where
  method : String
  tokenUsername : Option String
  lat : String
  lon : String
  message : String
  image : Option FormFile

/-- The handler `handlerPost` (`main.go` 94-188). -/
def handlerPost (env : Env) (r : PostRequest) : Reply × Trace :=
  if r.method = "OPTIONS" then (noContent, [])
  else
    let lat := env.parseFloat r.lat
    let lon := env.parseFloat r.lon
    match r.tokenUsername with
    | none => (.aborted, [])
    | some username =>
      let p : Post :=
        { user := username, message := r.message, location := { lat := lat, lon := lon },
          url := "", type := "", face := 0 }
      match r.image with
      | none => (httpError "Image is not available" 400, [])
      | some file =>
        let p := { p with type := mediaKind file.filename }
        let id := env.uuidNew []
        match saveToGCS env [.uuidNew] file.content id with
        | (.error _, tr) => (httpError "Failed to save image to GCS" 500, tr)
        | (.ok mediaLink, tr) =>
          let p := { p with url := mediaLink }
          let scored : Except (Reply × Trace) (Post × Trace) :=
            if p.type = "image" then
              let uri := gsUri id
              match annotate env tr uri with
              | (.error _, tr) => .error (httpError "Failed to annotate image" 500, tr)
              | (.ok score, tr) => .ok ({ p with face := score }, tr)
            else .ok (p, tr)
          match scored with
          | .error out => out
          | .ok (p, tr) =>
            match saveToES env tr (.post p) POST_INDEX id with
            | (some _, tr) => (httpError "Failed to save post to Elastic Search" 500, tr)
            | (none, tr) => (noContent, tr)

/-- What `handlerCluster` reads from its request: the method and the `term` parameter of the
URL (empty when absent). -/
structure ClusterRequest where
  method : String
  term : String

/-- The handler `handlerCluster` (`main.go` 194-224). -/
def handlerCluster (env : Env) (r : ClusterRequest) : Reply × Trace :=
  if r.method = "OPTIONS" then (noContent, [])
  else
    let term := r.term
    let query := (NewRangeQuery term).Gte (9 / 10)
    match readFromES env [] query POST_INDEX with
    | (.error _, tr) => (httpError "Failed to read from Elasticsearch" 500, tr)
    | (.ok searchResult, tr) =>
      let posts := getPostFromSearchResult env searchResult
      match jsonMarshal env posts with
      | .error _ => (httpError "Failed to parse post object" 500, tr)
      | .ok js => (written js, tr)

/-- What `handlerSearch` reads from its request: the method and the URL parameters `lat`,
`lon` and `range` (empty when absent). -/
structure SearchRequest where
  method : String
  lat : String
  lon : String
  range : String

/-- The handler `handlerSearch` (`main.go` 229-275). -/
def handlerSearch (env : Env) (r : SearchRequest) : Reply × Trace :=
  if r.method = "OPTIONS" then (noContent, [])
  else
    let lat := env.parseFloat r.lat
    let lon := env.parseFloat r.lon
    let ran := if r.range ≠ "" then r.range ++ "km" else DISTANCE
    let query := NewGeoDistanceQuery "location" ran lat lon
    match readFromES env [] query POST_INDEX with
    | (.error _, tr) => (httpError "Failed to read from Elasticsearch" 500, tr)
    | (.ok searchResult, tr) =>
      let posts := getPostFromSearchResult env searchResult
      match jsonMarshal env posts with
      | .error _ => (httpError "Failed to parse posts  into JSON format" 500, tr)
      | .ok js => (written js, tr)

/-! ## Credentials (`user.go`) -/

/-- The loop of `checkUser` over the items of `Each`: true at the first user whose password
equals the given one. -/
def passwordMatches (password : String) : List User → Bool
  | [] => false
  | u :: rest => if u.password = password then true else passwordMatches password rest

/-- The function `checkUser(username, password)`: the pair `(bool, error)` it returns. -/
def checkUser (env : Env) (tr : Trace) (username password : String) :
    (Bool × Option Err) × Trace :=
  let query := NewTermQuery "username" username
  match readFromES env tr query USER_INDEX with
  | (.error err, tr) => ((false, some err), tr)
  | (.ok searchResult, tr) =>
    if passwordMatches password (Each zeroUser env.unmarshalUser searchResult) then
      ((true, none), tr)
    else ((false, none), tr)

/-- The function `addUser(user)`: the pair `(bool, error)` it returns. -/
def addUser (env : Env) (tr : Trace) (user : User) : (Bool × Option Err) × Trace :=
  let query := NewTermQuery "username" user.username
  match readFromES env tr query USER_INDEX with
  | (.error err, tr) => ((false, some err), tr)
  | (.ok searchResult, tr) =>
    if searchResult.TotalHits > 0 then ((false, none), tr)
    else
      match saveToES env tr (.user user) USER_INDEX user.username with
      | (some err, tr) => ((false, some err), tr)
      | (none, tr) => ((true, none), tr)

/-- The pieces of the regular expressions the code uses. -/
inductive ReItem where
  /-- The anchor `^` (beginning of the text). -/
  | beginText
  /-- The anchor `$` (end of the text; the pattern sets no multi-line flag). -/
  | endText
  /-- A character class given by its inclusive ranges. -/
  | charClass (ranges : List (Char × Char))
deriving DecidableEq

/-- Does the sequence of items match a prefix of the text?  `atStart` tells whether the text
begins where the whole input begins. -/
def matchHere : List ReItem → Bool → List Char → Bool
  | [], _, _ => true
  | .beginText :: rest, atStart, s => atStart && matchHere rest atStart s
  | .endText :: rest, atStart, s => s.isEmpty && matchHere rest atStart s
  | .charClass _ :: _, _, [] => false
  | .charClass ranges :: rest, _, c :: s =>
    ranges.any (fun rg => decide (rg.1 ≤ c) && decide (c ≤ rg.2)) && matchHere rest false s

/-- Unanchored search: the items match at some offset of the text. -/
def matchFrom (re : List ReItem) : Bool → List Char → Bool
  | atStart, [] => matchHere re atStart []
  | atStart, c :: s => matchHere re atStart (c :: s) || matchFrom re false s

/-- Go's `(*Regexp).MatchString`. -/
def MatchString (re : List ReItem) (s : String) : Bool :=
  matchFrom re true s.data

/-- The pattern `^[a-z0-9]$` compiled in `handlerSignup`. -/
def usernamePattern : List ReItem :=
  [.beginText, .charClass [('a', 'z'), ('0', '9')], .endText]

/-- What `handlerSignup` reads from its request: the method and the result of decoding the
JSON body into a `User`. -/
structure SignupRequest where
  method : String
  body : Except Err User

/-- The handler `handlerSignup` (`user.go` 140-180). -/
def handlerSignup (env : Env) (r : SignupRequest) : Reply × Trace :=
  if r.method = "OPTIONS" then (noContent, [])
  else
    match r.body with
    | .error _ => (httpError "Cannot decode user data from client" 400, [])
    | .ok user =>
      if user.username = "" ∨ user.password = "" ∨
          MatchString usernamePattern user.username = true then
        (httpError "Invalid username or password" 400, [])
      else
        match addUser env [] user with
        | ((_, some _), tr) => (httpError "Failed to save user to Elasticsearch" 500, tr)
        | ((false, none), tr) => (httpError "User already exists" 400, tr)
        | ((true, none), tr) => (noContent, tr)

/-! ## Vocabulary of the statements -/

/-- The document `handlerPost` assembles for a request, given the address the store returned
and the score of the media. -/
def postDocument (env : Env) (r : PostRequest) (username : String) (file : FormFile)
    (mediaLink : String) (score : Num) : Post :=
  { user := username, message := r.message,
    location := { lat := env.parseFloat r.lat, lon := env.parseFloat r.lon },
    url := mediaLink, type := mediaKind file.filename, face := score }

/-- The reply of `handlerPost` after its call of `saveToES`. -/
def indexReply : Option Err → Reply
  | some _ => httpError "Failed to save post to Elastic Search" 500
  | none => noContent

/-- Reference meaning of the bounds of a range predicate on one numeric value. -/
def inRange (lo hi : Option Num) (includeLower includeUpper : Bool) (v : Num) : Bool :=
  (match lo with
    | none => true
    | some l => if includeLower then decide (l ≤ v) else decide (l < v)) &&
  (match hi with
    | none => true
    | some h => if includeUpper then decide (v ≤ h) else decide (v < h))

/-- Reference meaning of a range predicate on the numeric field `face` of a post: the posts
an index that evaluates the predicate exactly would select.  Other predicates select nothing
here. -/
def Query.selects (q : Query) (p : Post) : Bool :=
  match q with
  | .range name lo hi includeLower includeUpper =>
    if name = "face" then inRange lo hi includeLower includeUpper p.face else false
  | _ => false

/-! ## Concrete worlds and requests -/

/-- A world in which every external call succeeds, the scoring service finds no face and the
index holds nothing. -/
def quietEnv : Env where
  parseFloat := fun s => if s = "37.7" then 377 / 10 else if s = "-122.4" then -1224 / 10 else 0
  marshalPost := fun _ => .ok "\x7b\x7d"
  unmarshalPost := fun _ => none
  unmarshalUser := fun _ => none
  uuidNew := fun _ => "id-1"
  storageNewClient := fun _ => none
  bucketAttrs := fun _ _ => none
  writerCopy := fun _ _ _ _ => none
  writerClose := fun _ _ _ => none
  aclSetAllUsersReader := fun _ _ _ => none
  objectAttrs := fun _ bucket object => .ok ("https://storage.example/" ++ bucket ++ "/" ++ object)
  visionNewClient := fun _ => none
  detectFaces := fun _ _ _ => .ok []
  esNewClient := fun _ _ => none
  esSearch := fun _ _ _ => .ok ⟨0, []⟩
  esIndex := fun _ _ _ _ => none

/-- The quiet world with an object store that cannot be reached. -/
def storeDownEnv : Env :=
  { quietEnv with storageNewClient := fun _ => some "storage: no credentials" }

/-- The quiet world with a scoring service that cannot be reached. -/
def visionDownEnv : Env :=
  { quietEnv with visionNewClient := fun _ => some "vision: unavailable" }

/-- The quiet world with a scoring service that finds one face with confidence 0.95. -/
def faceEnv : Env :=
  { quietEnv with detectFaces := fun _ _ _ => .ok [95 / 100] }

/-- A post by `bob` with the given face score. -/
def samplePost (face : Num) : Post :=
  { user := "bob", message := "", location := { lat := 0, lon := 0 }, url := "u",
    type := "image", face := face }

/-- The quiet world with an index that holds `samplePost 0.9` and `samplePost 0.8999` and
answers a search with the first of them. -/
def clusterEnv : Env :=
  { quietEnv with
    unmarshalPost := fun s => if s = "p1" then some (samplePost (9 / 10)) else none
    esSearch := fun _ _ _ => .ok ⟨1, [⟨some "p1"⟩]⟩ }

/-- The record of `alice` in the user index. -/
def alice : User :=
  { username := "alice", password := "secret", age := 30, gender := "f" }

/-- The quiet world with a user index that answers a search with the record of `alice`. -/
def userEnv : Env :=
  { quietEnv with
    unmarshalUser := fun s => if s = "u1" then some alice else none
    esSearch := fun _ _ _ => .ok ⟨1, [⟨some "u1"⟩]⟩ }

/-- A submission of `cat.png` by `alice`. -/
def imagePost : PostRequest :=
  { method := "POST", tokenUsername := some "alice", lat := "37.7", lon := "-122.4",
    message := "hello", image := some ⟨[1, 2, 3], "cat.png"⟩ }

/-- A submission of `clip.mp4` by `alice`. -/
def videoPost : PostRequest :=
  { imagePost with image := some ⟨[1, 2, 3], "clip.mp4"⟩ }

/-! ## Lemmas on `filepath.Ext` -/

/-- What the backward scan returns: nothing when no dot precedes the first separator, and
otherwise the dot it stops at followed by everything it has walked over. -/
theorem extScan_spec (before after : List Char) :
    (extScan before after = [] ∧ '.' ∉ before.takeWhile (fun c => c ≠ '/')) ∨
    (∃ a b, before = a ++ '.' :: b ∧ '.' ∉ a ∧ '/' ∉ a ∧
      extScan before after = '.' :: (a.reverse ++ after)) := by
  induction before generalizing after with
  | nil => left; simp [extScan]
  | cons c rest ih =>
    by_cases hs : c = '/'
    · left; subst hs; simp [extScan]
    · by_cases hd : c = '.'
      · right
        refine ⟨[], rest, ?_, ?_, ?_, ?_⟩ <;> simp [extScan, hd]
      · rcases ih (c :: after) with ⟨h1, h2⟩ | ⟨a, b, h1, h2, h3, h4⟩
        · left
          refine ⟨by simp [extScan, hs, hd, h1], ?_⟩
          simp only [List.takeWhile_cons, ne_eq, hs, not_false_eq_true, decide_True,
            if_true, List.mem_cons, not_or]
          exact ⟨fun h => hd h.symm, h2⟩
        · right
          refine ⟨c :: a, b, by simp [h1], ?_, ?_, ?_⟩
          · simp only [List.mem_cons, not_or]; exact ⟨fun h => hd h.symm, h2⟩
          · simp only [List.mem_cons, not_or]; exact ⟨fun h => hs h.symm, h3⟩
          · simp [extScan, hs, hd, h4]

/-- The extension is empty exactly when the last path element has no dot. -/
theorem Ext_eq_empty_iff (path : String) :
    Ext path = "" ↔ '.' ∉ lastElement path.data := by
  unfold Ext lastElement
  rcases extScan_spec path.data.reverse [] with ⟨h1, h2⟩ | ⟨a, b, h1, h2, h3, h4⟩
  · simp only [h1, List.mem_reverse]
    exact ⟨fun _ => h2, fun _ => trivial⟩
  · rw [h4, h1]
    have htw : (a ++ '.' :: b).takeWhile (fun c => c ≠ '/') = a ++ ('.' :: b).takeWhile (fun c => c ≠ '/') := by
      apply List.takeWhile_append_of_pos
      intro x hx
      simp only [ne_eq, decide_not, Bool.not_eq_eq_eq_not, Bool.not_true, decide_eq_false_iff_not]
      intro h; exact h3 (h ▸ hx)
    constructor
    · intro h
      have := congrArg String.data h
      simp at this
    · intro h
      exfalso; apply h
      rw [htw]
      simp [List.takeWhile_cons]

/-- A non-empty extension is the suffix of the path that starts at its last dot, and holds no
separator. -/
theorem Ext_suffix (path : String) (h : '.' ∈ lastElement path.data) :
    ∃ pre suf, path.data = pre ++ '.' :: suf ∧ '.' ∉ suf ∧ '/' ∉ suf ∧
      Ext path = ⟨'.' :: suf⟩ := by
  rcases extScan_spec path.data.reverse [] with ⟨h1, h2⟩ | ⟨a, b, h1, h2, h3, h4⟩
  · exfalso
    unfold lastElement at h
    exact h2 (List.mem_reverse.mp h)
  · refine ⟨b.reverse, a.reverse, ?_, by simpa using h2, by simpa using h3, ?_⟩
    · have := congrArg List.reverse h1
      simpa using this
    · unfold Ext; rw [h4]; simp

/-- The table lookup, spelled out as a chain of comparisons. -/
theorem lookup_mediaTypes (e : String) :
    mediaTypes.lookup e =
      if e = ".jpeg" ∨ e = ".jpg" ∨ e = ".gif" ∨ e = ".png" then some "image"
      else if e = ".mov" ∨ e = ".mp4" ∨ e = ".avi" ∨ e = ".flv" ∨ e = ".wmv" then some "video"
      else none := by
  by_cases h1 : e = ".jpeg"
  · subst h1; decide
  by_cases h2 : e = ".jpg"
  · subst h2; decide
  by_cases h3 : e = ".gif"
  · subst h3; decide
  by_cases h4 : e = ".png"
  · subst h4; decide
  by_cases h5 : e = ".mov"
  · subst h5; decide
  by_cases h6 : e = ".mp4"
  · subst h6; decide
  by_cases h7 : e = ".avi"
  · subst h7; decide
  by_cases h8 : e = ".flv"
  · subst h8; decide
  by_cases h9 : e = ".wmv"
  · subst h9; decide
  have hb : ∀ k : String, e ≠ k → (e == k) = false := fun k hk => by simpa using hk
  simp only [mediaTypes, List.lookup, hb _ h1, hb _ h2, hb _ h3, hb _ h4, hb _ h5, hb _ h6,
    hb _ h7, hb _ h8, hb _ h9, h1, h2, h3, h4, h5, h6, h7, h8, h9, or_self, if_false]

/-! ## Lemmas on the external calls of each step -/

theorem saveToGCS_trace (env : Env) (tr : Trace) (r : Bytes) (o : String) :
    ∃ ext, (saveToGCS env tr r o).2 = tr ++ ext ∧ (∀ c ∈ ext, c.isStore = true) ∧
      (∀ link, (saveToGCS env tr r o).1 = .ok link →
        ext = putCalls o r ∧
        env.objectAttrs (tr ++ (putCalls o r).take 5) BUCKET_NAME o = .ok link) := by
  simp only [saveToGCS]
  split
  · exact ⟨[.storageNewClient], rfl, by simp [Call.isStore], by simp⟩
  split
  · exact ⟨[.storageNewClient, .bucketAttrs BUCKET_NAME], by simp, by simp [Call.isStore], by simp⟩
  split
  · exact ⟨[.storageNewClient, .bucketAttrs BUCKET_NAME, .writerCopy BUCKET_NAME o r],
      by simp, by simp [Call.isStore], by simp⟩
  split
  · exact ⟨[.storageNewClient, .bucketAttrs BUCKET_NAME, .writerCopy BUCKET_NAME o r,
      .writerClose BUCKET_NAME o], by simp, by simp [Call.isStore], by simp⟩
  split
  · exact ⟨[.storageNewClient, .bucketAttrs BUCKET_NAME, .writerCopy BUCKET_NAME o r,
      .writerClose BUCKET_NAME o, .aclSetAllUsersReader BUCKET_NAME o],
      by simp, by simp [Call.isStore], by simp⟩
  split
  · exact ⟨putCalls o r, by simp [putCalls], by simp [putCalls, Call.isStore], by simp⟩
  · rename_i link hl
    refine ⟨putCalls o r, by simp [putCalls], by simp [putCalls, Call.isStore], ?_⟩
    intro l hl2
    refine ⟨rfl, ?_⟩
    simp only [Except.ok.injEq] at hl2
    subst hl2
    simpa [putCalls] using hl

theorem annotate_trace (env : Env) (tr : Trace) (uri : String) :
    ∃ ext, (annotate env tr uri).2 = tr ++ ext ∧ (∀ c ∈ ext, c.isScorer = true) ∧
      ext ≠ [] ∧
      (∀ score, (annotate env tr uri).1 = .ok score → ext = scoreCalls uri) := by
  simp only [annotate]
  split
  · exact ⟨[.visionNewClient], rfl, by simp [Call.isScorer], by simp, by simp⟩
  split
  · exact ⟨scoreCalls uri, by simp [scoreCalls], by simp [scoreCalls, Call.isScorer],
      by simp [scoreCalls], by simp⟩
  split
  · exact ⟨scoreCalls uri, by simp [scoreCalls], by simp [scoreCalls, Call.isScorer],
      by simp [scoreCalls], by simp⟩
  · exact ⟨scoreCalls uri, by simp [scoreCalls], by simp [scoreCalls, Call.isScorer],
      by simp [scoreCalls], by simp⟩

theorem saveToES_trace (env : Env) (tr : Trace) (i : Doc) (index id : String) :
    ((saveToES env tr i index id).2 = tr ++ [.esNewClient ES_URL] ∧
        (saveToES env tr i index id).1 ≠ none) ∨
      (saveToES env tr i index id).2 = tr ++ upsertCalls index id i := by
  simp only [saveToES]
  split
  · left; simp
  split
  · right; simp [upsertCalls]
  · right; simp [upsertCalls]

/-! ## The four ways through `handlerPost` once a file is attached -/

theorem handlerPost_store_failed (env : Env) (r : PostRequest) (username : String)
    (file : FormFile) (err : Err) (hm : r.method ≠ "OPTIONS")
    (hu : r.tokenUsername = some username) (hf : r.image = some file)
    (hs : (saveToGCS env [.uuidNew] file.content (env.uuidNew [])).1 = .error err) :
    handlerPost env r =
      (httpError "Failed to save image to GCS" 500,
        (saveToGCS env [.uuidNew] file.content (env.uuidNew [])).2) := by
  rcases hS : saveToGCS env [.uuidNew] file.content (env.uuidNew []) with ⟨res, trS⟩
  rw [hS] at hs
  simp only at hs
  subst hs
  simp [handlerPost, hm, hu, hf, hS]

theorem handlerPost_not_image (env : Env) (r : PostRequest) (username : String)
    (file : FormFile) (link : String) (hm : r.method ≠ "OPTIONS")
    (hu : r.tokenUsername = some username) (hf : r.image = some file)
    (hs : (saveToGCS env [.uuidNew] file.content (env.uuidNew [])).1 = .ok link)
    (hk : mediaKind file.filename ≠ "image") :
    handlerPost env r =
      (indexReply (saveToES env (saveToGCS env [.uuidNew] file.content (env.uuidNew [])).2
          (.post (postDocument env r username file link 0)) POST_INDEX (env.uuidNew [])).1,
        (saveToES env (saveToGCS env [.uuidNew] file.content (env.uuidNew [])).2
          (.post (postDocument env r username file link 0)) POST_INDEX (env.uuidNew [])).2) := by
  rcases hS : saveToGCS env [.uuidNew] file.content (env.uuidNew []) with ⟨res, trS⟩
  rw [hS] at hs
  simp only at hs
  subst hs
  simp only [handlerPost, hm, hu, hf, hS, hk, if_false, postDocument]
  generalize saveToES env trS _ _ _ = x
  rcases x with ⟨e, trE⟩
  cases e <;> simp [indexReply]

theorem handlerPost_score_failed (env : Env) (r : PostRequest) (username : String)
    (file : FormFile) (link : String) (err : Err) (hm : r.method ≠ "OPTIONS")
    (hu : r.tokenUsername = some username) (hf : r.image = some file)
    (hs : (saveToGCS env [.uuidNew] file.content (env.uuidNew [])).1 = .ok link)
    (hk : mediaKind file.filename = "image")
    (ha : (annotate env (saveToGCS env [.uuidNew] file.content (env.uuidNew [])).2
      (gsUri (env.uuidNew []))).1 = .error err) :
    handlerPost env r =
      (httpError "Failed to annotate image" 500,
        (annotate env (saveToGCS env [.uuidNew] file.content (env.uuidNew [])).2
          (gsUri (env.uuidNew []))).2) := by
  rcases hS : saveToGCS env [.uuidNew] file.content (env.uuidNew []) with ⟨res, trS⟩
  rw [hS] at hs ha
  simp only at hs ha
  subst hs
  rcases hA : annotate env trS (gsUri (env.uuidNew [])) with ⟨a, trA⟩
  rw [hA] at ha
  simp only at ha
  subst ha
  simp [handlerPost, hm, hu, hf, hS, hk, hA]

theorem handlerPost_scored (env : Env) (r : PostRequest) (username : String)
    (file : FormFile) (link : String) (score : Num) (hm : r.method ≠ "OPTIONS")
    (hu : r.tokenUsername = some username) (hf : r.image = some file)
    (hs : (saveToGCS env [.uuidNew] file.content (env.uuidNew [])).1 = .ok link)
    (hk : mediaKind file.filename = "image")
    (ha : (annotate env (saveToGCS env [.uuidNew] file.content (env.uuidNew [])).2
      (gsUri (env.uuidNew []))).1 = .ok score) :
    handlerPost env r =
      (indexReply (saveToES env (annotate env
            (saveToGCS env [.uuidNew] file.content (env.uuidNew [])).2
            (gsUri (env.uuidNew []))).2
          (.post (postDocument env r username file link score)) POST_INDEX (env.uuidNew [])).1,
        (saveToES env (annotate env
            (saveToGCS env [.uuidNew] file.content (env.uuidNew [])).2
            (gsUri (env.uuidNew []))).2
          (.post (postDocument env r username file link score)) POST_INDEX
          (env.uuidNew [])).2) := by
  rcases hS : saveToGCS env [.uuidNew] file.content (env.uuidNew []) with ⟨res, trS⟩
  rw [hS] at hs ha
  simp only at hs ha
  subst hs
  rcases hA : annotate env trS (gsUri (env.uuidNew [])) with ⟨a, trA⟩
  rw [hA] at ha
  simp only at ha
  subst ha
  simp only [handlerPost, hm, hu, hf, hS, hk, hA, if_true, if_false, postDocument]
  generalize saveToES env trA _ _ _ = x
  rcases x with ⟨e, trE⟩
  cases e <;> simp [indexReply]

/-- Every index write of `handlerPost` comes after a successful store write and, for an image,
a successful scoring; it writes the assembled document into the post index under the
generated id. -/
theorem handlerPost_index_write (env : Env) (r : PostRequest) (username : String)
    (file : FormFile) (index id : String) (doc : Doc) (hm : r.method ≠ "OPTIONS")
    (hu : r.tokenUsername = some username) (hf : r.image = some file)
    (hc : Call.esIndex index id doc ∈ (handlerPost env r).2) :
    ∃ link score,
      (saveToGCS env [.uuidNew] file.content (env.uuidNew [])).1 = .ok link ∧
      (mediaKind file.filename = "image" →
        (annotate env (saveToGCS env [.uuidNew] file.content (env.uuidNew [])).2
          (gsUri (env.uuidNew []))).1 = .ok score) ∧
      (mediaKind file.filename ≠ "image" → score = 0) ∧
      index = POST_INDEX ∧ id = env.uuidNew [] ∧
      doc = .post (postDocument env r username file link score) := by
  obtain ⟨extS, hS2, hSstore, -⟩ := saveToGCS_trace env [.uuidNew] file.content (env.uuidNew [])
  have hnotS : ∀ c ∈ extS, c ≠ Call.esIndex index id doc := by
    intro c hcS h
    have := hSstore c hcS
    rw [h] at this
    simp [Call.isStore] at this
  cases hs : (saveToGCS env [.uuidNew] file.content (env.uuidNew [])).1 with
  | error err =>
    rw [handlerPost_store_failed env r username file err hm hu hf hs, hS2] at hc
    simp only [List.mem_append, List.mem_singleton] at hc
    rcases hc with h | h
    · exact absurd h (by simp)
    · exact absurd rfl (hnotS _ h)
  | ok link =>
    by_cases hk : mediaKind file.filename = "image"
    · obtain ⟨extA, hA2, hAsc, -, -⟩ := annotate_trace env
        (saveToGCS env [.uuidNew] file.content (env.uuidNew [])).2 (gsUri (env.uuidNew []))
      have hnotA : ∀ c ∈ extA, c ≠ Call.esIndex index id doc := by
        intro c hcA h
        have := hAsc c hcA
        rw [h] at this
        simp [Call.isScorer] at this
      cases ha : (annotate env (saveToGCS env [.uuidNew] file.content (env.uuidNew [])).2
          (gsUri (env.uuidNew []))).1 with
      | error err =>
        rw [handlerPost_score_failed env r username file link err hm hu hf hs hk ha, hA2,
          hS2] at hc
        simp only [List.mem_append, List.mem_singleton] at hc
        rcases hc with (h | h) | h
        · exact absurd h (by simp)
        · exact absurd rfl (hnotS _ h)
        · exact absurd rfl (hnotA _ h)
      | ok score =>
        rw [handlerPost_scored env r username file link score hm hu hf hs hk ha] at hc
        refine ⟨link, score, rfl, fun _ => rfl, fun h => absurd hk h, ?_⟩
        rcases saveToES_trace env _ (.post (postDocument env r username file link score))
          POST_INDEX (env.uuidNew []) with ⟨h2, -⟩ | h2
        · rw [h2, hA2, hS2] at hc
          simp only [List.mem_append, List.mem_singleton] at hc
          rcases hc with ((h | h) | h) | h
          · exact absurd h (by simp)
          · exact absurd rfl (hnotS _ h)
          · exact absurd rfl (hnotA _ h)
          · exact absurd h (by simp)
        · rw [h2, hA2, hS2] at hc
          simp only [List.mem_append, List.mem_singleton, upsertCalls, List.mem_cons,
            List.mem_nil_iff, or_false] at hc
          rcases hc with ((h | h) | h) | h | h
          · exact absurd h (by simp)
          · exact absurd rfl (hnotS _ h)
          · exact absurd rfl (hnotA _ h)
          · exact absurd h (by simp)
          · simp only [Call.esIndex.injEq] at h
            exact ⟨h.1, h.2.1, h.2.2⟩
    · rw [handlerPost_not_image env r username file link hm hu hf hs hk] at hc
      refine ⟨link, 0, rfl, fun h => absurd h hk, fun _ => rfl, ?_⟩
      rcases saveToES_trace env _ (.post (postDocument env r username file link 0))
        POST_INDEX (env.uuidNew []) with ⟨h2, -⟩ | h2
      · rw [h2, hS2] at hc
        simp only [List.mem_append, List.mem_singleton] at hc
        rcases hc with (h | h) | h
        · exact absurd h (by simp)
        · exact absurd rfl (hnotS _ h)
        · exact absurd h (by simp)
      · rw [h2, hS2] at hc
        simp only [List.mem_append, List.mem_singleton, upsertCalls, List.mem_cons,
          List.mem_nil_iff, or_false] at hc
        rcases hc with (h | h) | h | h
        · exact absurd h (by simp)
        · exact absurd rfl (hnotS _ h)
        · exact absurd h (by simp)
        · simp only [Call.esIndex.injEq] at h
          exact ⟨h.1, h.2.1, h.2.2⟩

/-- A request that is `OPTIONS`, carries no usable `username` claim or carries no file makes no
external call. -/
theorem handlerPost_no_calls (env : Env) (r : PostRequest)
    (h : r.method = "OPTIONS" ∨ r.tokenUsername = none ∨ r.image = none) :
    (handlerPost env r).2 = [] := by
  unfold handlerPost
  by_cases hm : r.method = "OPTIONS"
  · simp [hm]
  · cases hu : r.tokenUsername with
    | none => simp [hm]
    | some u =>
      cases hf : r.image with
      | none => simp [hm]
      | some f => simp [hm, hu, hf] at h

/-! ## Media classification: the claim on `mediaKind` -/

/-- C1: the media kind `handlerPost` gives a post depends on the uploaded file's name only
through `filepath.Ext` of it; the extensions `.jpeg`, `.jpg`, `.gif`, `.png` give `image`,
`.mov`, `.mp4`, `.avi`, `.flv`, `.wmv` give `video`, and every other extension, the empty one
included, gives `unknown`, upper-case spellings too.  The extension is empty when the last
path element has no dot and is otherwise the suffix starting at the last dot.  Whatever
`handlerPost` writes to the index carries that kind. -/
theorem mediaKind_by_extension :
    (∀ f g : String, Ext f = Ext g → mediaKind f = mediaKind g) ∧
    (∀ f : String,
      (mediaKind f = "image" ↔ Ext f ∈ [".jpeg", ".jpg", ".gif", ".png"]) ∧
      (mediaKind f = "video" ↔ Ext f ∈ [".mov", ".mp4", ".avi", ".flv", ".wmv"]) ∧
      (mediaKind f = "unknown" ↔
        Ext f ∉ [".jpeg", ".jpg", ".gif", ".png", ".mov", ".mp4", ".avi", ".flv", ".wmv"])) ∧
    (∀ f : String,
      (Ext f = "" ↔ '.' ∉ lastElement f.data) ∧
      ('.' ∈ lastElement f.data →
        ∃ pre suf, f.data = pre ++ '.' :: suf ∧ '.' ∉ suf ∧ '/' ∉ suf ∧
          Ext f = ⟨'.' :: suf⟩)) ∧
    (mediaKind ".png" = "image" ∧ mediaKind ".mp4" = "video" ∧ mediaKind ".xyz" = "unknown" ∧
      mediaKind "" = "unknown" ∧ mediaKind "a.PNG" = "unknown") ∧
    (∀ (env : Env) (r : PostRequest) (file : FormFile) (index id : String) (p : Post),
      r.image = some file → Call.esIndex index id (.post p) ∈ (handlerPost env r).2 →
        p.type = mediaKind file.filename) := by
  refine ⟨?_, ?_, ?_, ?_, ?_⟩
  · intro f g h
    simp only [mediaKind, h]
  · intro f
    simp only [mediaKind, lookup_mediaTypes, List.mem_cons, List.mem_singleton, List.mem_nil_iff,
      or_false, not_or]
    refine ⟨?_, ?_, ?_⟩
    · split_ifs with h1 h2 <;> simp_all
    · split_ifs with h1 h2
      · rcases h1 with h | h | h | h <;> simp [h]
      · simp_all
      · simp_all
    · split_ifs with h1 h2
      · rcases h1 with h | h | h | h <;> simp [h]
      · rcases h2 with h | h | h | h | h <;> simp [h]
      · simp_all
  · intro f
    exact ⟨Ext_eq_empty_iff f, Ext_suffix f⟩
  · decide
  · intro env r file index id p hf hc
    by_cases hm : r.method = "OPTIONS"
    · rw [handlerPost_no_calls env r (Or.inl hm)] at hc
      simp at hc
    · cases hu : r.tokenUsername with
      | none =>
        rw [handlerPost_no_calls env r (Or.inr (Or.inl hu))] at hc
        simp at hc
      | some username =>
        obtain ⟨link, score, -, -, -, -, -, h6⟩ :=
          handlerPost_index_write env r username file index id (.post p) hm hu hf hc
        simp only [Doc.post.injEq] at h6
        rw [h6]
        rfl

/-! ## Ingestion: the claims on `handlerPost` -/

/-- C2: a submission other than `OPTIONS` that carries no file under `image` is answered
with status 400 and the message `Image is not available`, and makes no external call at all:
no store write, no scorer call, no index write, whatever the author, message, `lat` and `lon`
are. -/
theorem handlerPost_media_required (env : Env) (method author lat lon message : String)
    (hm : method ≠ "OPTIONS") :
    handlerPost env ⟨method, some author, lat, lon, message, none⟩ =
        (Reply.sent 400 "Image is not available\n", []) ∧
      ∀ c ∈ (handlerPost env ⟨method, some author, lat, lon, message, none⟩).2,
        c.isStore = false ∧ c.isScorer = false ∧ c.isIndex = false := by
  have h : handlerPost env ⟨method, some author, lat, lon, message, none⟩ =
      (Reply.sent 400 "Image is not available\n", []) := by
    simp [handlerPost, hm, httpError]
  refine ⟨h, ?_⟩
  rw [h]
  intro c hc
  simp at hc

/-- C3: in `handlerPost` a downstream failure stops the handler before any later step.  When
`saveToGCS` fails the reply is the 500 `Failed to save image to GCS`, and the handler has
called neither the scorer nor the index.  When the kind is `image` and `annotate` fails the
reply is the 500 `Failed to annotate image`, the index has not been called, and the store
write has already been made.  An index write is issued only if the store write succeeded and,
for an image, the scoring succeeded. -/
theorem handlerPost_failure_aborts (env : Env) (r : PostRequest) (username : String)
    (file : FormFile) (hm : r.method ≠ "OPTIONS") (hu : r.tokenUsername = some username)
    (hf : r.image = some file) :
    (∀ err, (saveToGCS env [.uuidNew] file.content (env.uuidNew [])).1 = .error err →
      handlerPost env r =
        (Reply.sent 500 "Failed to save image to GCS\n",
          (saveToGCS env [.uuidNew] file.content (env.uuidNew [])).2) ∧
      ∀ c ∈ (handlerPost env r).2, c.isScorer = false ∧ c.isIndex = false) ∧
    (∀ link err, (saveToGCS env [.uuidNew] file.content (env.uuidNew [])).1 = .ok link →
      mediaKind file.filename = "image" →
      (annotate env (saveToGCS env [.uuidNew] file.content (env.uuidNew [])).2
        (gsUri (env.uuidNew []))).1 = .error err →
      handlerPost env r =
        (Reply.sent 500 "Failed to annotate image\n",
          (annotate env (saveToGCS env [.uuidNew] file.content (env.uuidNew [])).2
            (gsUri (env.uuidNew []))).2) ∧
      (∀ c ∈ (handlerPost env r).2, c.isIndex = false) ∧
      ([Call.uuidNew] ++ putCalls (env.uuidNew []) file.content) <+: (handlerPost env r).2) ∧
    (∀ index id doc, Call.esIndex index id doc ∈ (handlerPost env r).2 →
      (∃ link, (saveToGCS env [.uuidNew] file.content (env.uuidNew [])).1 = .ok link) ∧
      (mediaKind file.filename = "image" →
        ∃ score, (annotate env (saveToGCS env [.uuidNew] file.content (env.uuidNew [])).2
          (gsUri (env.uuidNew []))).1 = .ok score)) := by
  obtain ⟨extS, hS2, hSstore, hSok⟩ :=
    saveToGCS_trace env [.uuidNew] file.content (env.uuidNew [])
  refine ⟨?_, ?_, ?_⟩
  · intro err hs
    have h := handlerPost_store_failed env r username file err hm hu hf hs
    refine ⟨by simpa [httpError] using h, ?_⟩
    rw [h, hS2]
    intro c hc
    simp only [List.mem_append, List.mem_singleton] at hc
    rcases hc with h1 | h1
    · subst h1; simp [Call.isScorer, Call.isIndex]
    · have := hSstore c h1
      cases c <;> simp_all [Call.isStore, Call.isScorer, Call.isIndex]
  · intro link err hs hk ha
    have h := handlerPost_score_failed env r username file link err hm hu hf hs hk ha
    obtain ⟨extA, hA2, hAsc, -, -⟩ := annotate_trace env
      (saveToGCS env [.uuidNew] file.content (env.uuidNew [])).2 (gsUri (env.uuidNew []))
    have hext := (hSok link hs).1
    refine ⟨by simpa [httpError] using h, ?_, ?_⟩
    · rw [h, hA2, hS2]
      intro c hc
      simp only [List.mem_append, List.mem_singleton] at hc
      rcases hc with (h1 | h1) | h1
      · subst h1; simp [Call.isIndex]
      · have := hSstore c h1
        cases c <;> simp_all [Call.isStore, Call.isIndex]
      · have := hAsc c h1
        cases c <;> simp_all [Call.isScorer, Call.isIndex]
    · rw [h, hA2, hS2, hext]
      exact List.prefix_append _ _
  · intro index id doc hc
    obtain ⟨link, score, h1, h2, -⟩ :=
      handlerPost_index_write env r username file index id doc hm hu hf hc
    exact ⟨⟨link, h1⟩, fun hk => ⟨score, h2 hk⟩⟩

/-- C4: the scorer is called exactly when the kind is `image`.  For a `video` or `unknown`
file no scorer call is made, and once the store write has succeeded the handler goes on to
`saveToES` with a document whose `face` is 0; for an image whose store write succeeded the
scorer is called, and when `annotate` returns a confidence the handler goes on to `saveToES`
with that confidence as `face`; every index write carries that `face`.  `annotate` itself
returns 0 and no error when the service reports no face, and the confidence of the first
annotation otherwise. -/
theorem scorer_exactly_for_images (env : Env) (r : PostRequest) (username : String)
    (file : FormFile) (hm : r.method ≠ "OPTIONS") (hu : r.tokenUsername = some username)
    (hf : r.image = some file) :
    (mediaKind file.filename ≠ "image" →
      (∀ c ∈ (handlerPost env r).2, c.isScorer = false) ∧
      (∀ link, (saveToGCS env [.uuidNew] file.content (env.uuidNew [])).1 = .ok link →
        handlerPost env r =
          (indexReply (saveToES env (saveToGCS env [.uuidNew] file.content (env.uuidNew [])).2
              (.post (postDocument env r username file link 0)) POST_INDEX
              (env.uuidNew [])).1,
            (saveToES env (saveToGCS env [.uuidNew] file.content (env.uuidNew [])).2
              (.post (postDocument env r username file link 0)) POST_INDEX
              (env.uuidNew [])).2)) ∧
      (∀ index id p, Call.esIndex index id (.post p) ∈ (handlerPost env r).2 → p.face = 0)) ∧
    (mediaKind file.filename = "image" →
      (∀ link, (saveToGCS env [.uuidNew] file.content (env.uuidNew [])).1 = .ok link →
        Call.visionNewClient ∈ (handlerPost env r).2) ∧
      (∀ link score, (saveToGCS env [.uuidNew] file.content (env.uuidNew [])).1 = .ok link →
        (annotate env (saveToGCS env [.uuidNew] file.content (env.uuidNew [])).2
          (gsUri (env.uuidNew []))).1 = .ok score →
        handlerPost env r =
          (indexReply (saveToES env (annotate env
                (saveToGCS env [.uuidNew] file.content (env.uuidNew [])).2
                (gsUri (env.uuidNew []))).2
              (.post (postDocument env r username file link score)) POST_INDEX
              (env.uuidNew [])).1,
            (saveToES env (annotate env
                (saveToGCS env [.uuidNew] file.content (env.uuidNew [])).2
                (gsUri (env.uuidNew []))).2
              (.post (postDocument env r username file link score)) POST_INDEX
              (env.uuidNew [])).2)) ∧
      (∀ index id p, Call.esIndex index id (.post p) ∈ (handlerPost env r).2 →
        (annotate env (saveToGCS env [.uuidNew] file.content (env.uuidNew [])).2
          (gsUri (env.uuidNew []))).1 = .ok p.face)) ∧
    (∀ tr uri, env.visionNewClient tr = none →
      env.detectFaces (tr ++ [.visionNewClient]) uri 1 = .ok [] →
      annotate env tr uri = (.ok 0, tr ++ scoreCalls uri)) ∧
    (∀ tr uri first rest, env.visionNewClient tr = none →
      env.detectFaces (tr ++ [.visionNewClient]) uri 1 = .ok (first :: rest) →
      annotate env tr uri = (.ok first, tr ++ scoreCalls uri)) := by
  obtain ⟨extS, hS2, hSstore, hSok⟩ :=
    saveToGCS_trace env [.uuidNew] file.content (env.uuidNew [])
  have hSno : ∀ c ∈ (saveToGCS env [.uuidNew] file.content (env.uuidNew [])).2,
      c.isScorer = false := by
    rw [hS2]
    intro c hc
    simp only [List.mem_append, List.mem_singleton] at hc
    rcases hc with h1 | h1
    · subst h1; rfl
    · have := hSstore c h1
      cases c <;> simp_all [Call.isStore, Call.isScorer]
  refine ⟨?_, ?_, ?_, ?_⟩
  · intro hk
    refine ⟨?_, ?_, ?_⟩
    · cases hs : (saveToGCS env [.uuidNew] file.content (env.uuidNew [])).1 with
      | error err =>
        rw [handlerPost_store_failed env r username file err hm hu hf hs]
        exact hSno
      | ok link =>
        rw [handlerPost_not_image env r username file link hm hu hf hs hk]
        intro c hc
        rcases saveToES_trace env (saveToGCS env [.uuidNew] file.content (env.uuidNew [])).2
          (.post (postDocument env r username file link 0)) POST_INDEX (env.uuidNew [])
          with ⟨h2, -⟩ | h2
        · rw [h2] at hc
          simp only [List.mem_append, List.mem_singleton] at hc
          rcases hc with h1 | h1
          · exact hSno c h1
          · subst h1; rfl
        · rw [h2] at hc
          simp only [List.mem_append, upsertCalls, List.mem_cons, List.mem_nil_iff,
            or_false] at hc
          rcases hc with h1 | h1 | h1
          · exact hSno c h1
          · subst h1; rfl
          · subst h1; rfl
    · intro link hs
      exact handlerPost_not_image env r username file link hm hu hf hs hk
    · intro index id p hc
      obtain ⟨link, score, -, -, h3, -, -, h6⟩ :=
        handlerPost_index_write env r username file index id (.post p) hm hu hf hc
      simp only [Doc.post.injEq] at h6
      rw [h6, h3 hk]
      rfl
  · intro hk
    obtain ⟨extA, hA2, -, hAne, -⟩ := annotate_trace env
      (saveToGCS env [.uuidNew] file.content (env.uuidNew [])).2 (gsUri (env.uuidNew []))
    have hfirst : Call.visionNewClient ∈
        (annotate env (saveToGCS env [.uuidNew] file.content (env.uuidNew [])).2
          (gsUri (env.uuidNew []))).2 := by
      simp only [annotate]
      split
      · simp
      split
      · simp
      split <;> simp
    refine ⟨?_, ?_, ?_⟩
    · intro link hs
      cases ha : (annotate env (saveToGCS env [.uuidNew] file.content (env.uuidNew [])).2
          (gsUri (env.uuidNew []))).1 with
      | error err =>
        rw [handlerPost_score_failed env r username file link err hm hu hf hs hk ha]
        exact hfirst
      | ok score =>
        rw [handlerPost_scored env r username file link score hm hu hf hs hk ha]
        rcases saveToES_trace env (annotate env
            (saveToGCS env [.uuidNew] file.content (env.uuidNew [])).2
            (gsUri (env.uuidNew []))).2
          (.post (postDocument env r username file link score)) POST_INDEX (env.uuidNew [])
          with ⟨h2, -⟩ | h2
        · rw [h2]; exact List.mem_append_left _ hfirst
        · rw [h2]; exact List.mem_append_left _ hfirst
    · intro link score hs ha
      exact handlerPost_scored env r username file link score hm hu hf hs hk ha
    · intro index id p hc
      obtain ⟨link, score, -, h2, -, -, -, h6⟩ :=
        handlerPost_index_write env r username file index id (.post p) hm hu hf hc
      simp only [Doc.post.injEq] at h6
      rw [h6]
      exact h2 hk
  · intro tr uri h1 h2
    simp [annotate, h1, h2, scoreCalls]
  · intro tr uri first rest h1 h2
    simp [annotate, h1, h2, scoreCalls]

/-- C5: a submission with a file that `handlerPost` answers with success made, in this order,
one complete store write of the file under the generated id, for an image one scorer call on
`gs://jiawei-bucket/<id>`, and one index write, into the post index, under that same id.  The
id is the one `uuid.New()` returned.  The `url` of the document written is the address the
store returned for the object, so it is non-empty when that address is. -/
theorem handlerPost_success (env : Env) (r : PostRequest) (file : FormFile)
    (hm : r.method ≠ "OPTIONS") (hf : r.image = some file)
    (hok : (handlerPost env r).1 = Reply.sent 200 "") :
    ∃ username link score,
      r.tokenUsername = some username ∧
      saveToGCS env [.uuidNew] file.content (env.uuidNew []) =
        (.ok link, [Call.uuidNew] ++ putCalls (env.uuidNew []) file.content) ∧
      env.objectAttrs ([Call.uuidNew] ++ (putCalls (env.uuidNew []) file.content).take 5)
        BUCKET_NAME (env.uuidNew []) = .ok link ∧
      (handlerPost env r).2 =
        [Call.uuidNew] ++ putCalls (env.uuidNew []) file.content ++
          (if mediaKind file.filename = "image" then scoreCalls (gsUri (env.uuidNew []))
            else []) ++
          upsertCalls POST_INDEX (env.uuidNew [])
            (.post (postDocument env r username file link score)) ∧
      (handlerPost env r).2.filter Call.isStore = putCalls (env.uuidNew []) file.content ∧
      (handlerPost env r).2.filter Call.isIndexWrite =
        [.esIndex POST_INDEX (env.uuidNew [])
          (.post (postDocument env r username file link score))] ∧
      gsUri (env.uuidNew []) = "gs://jiawei-bucket/" ++ env.uuidNew [] ∧
      (postDocument env r username file link score).url = link ∧
      (link ≠ "" → (postDocument env r username file link score).url ≠ "") := by
  cases hu : r.tokenUsername with
  | none =>
    simp [handlerPost, hm, hu] at hok
  | some username =>
    obtain ⟨extS, hS2, -, hSok⟩ :=
      saveToGCS_trace env [.uuidNew] file.content (env.uuidNew [])
    cases hs : (saveToGCS env [.uuidNew] file.content (env.uuidNew [])).1 with
    | error err =>
      rw [handlerPost_store_failed env r username file err hm hu hf hs] at hok
      simp [httpError] at hok
    | ok link =>
      obtain ⟨hext, hattrs⟩ := hSok link hs
      have hS : saveToGCS env [.uuidNew] file.content (env.uuidNew []) =
          (.ok link, [Call.uuidNew] ++ putCalls (env.uuidNew []) file.content) := by
        rw [← hext, ← hS2, ← hs]
      have key : ∀ (tr : Trace) (score : Num),
          handlerPost env r =
            (indexReply (saveToES env tr (.post (postDocument env r username file link score))
              POST_INDEX (env.uuidNew [])).1,
             (saveToES env tr (.post (postDocument env r username file link score))
              POST_INDEX (env.uuidNew [])).2) →
          (handlerPost env r).2 = tr ++ upsertCalls POST_INDEX (env.uuidNew [])
            (.post (postDocument env r username file link score)) := by
        intro tr score h
        rcases saveToES_trace env tr (.post (postDocument env r username file link score))
          POST_INDEX (env.uuidNew []) with ⟨-, h2⟩ | h2
        · rw [h] at hok
          simp only at hok
          cases he : (saveToES env tr (.post (postDocument env r username file link score))
            POST_INDEX (env.uuidNew [])).1 with
          | none => exact absurd he h2
          | some e => rw [he] at hok; simp [indexReply, httpError] at hok
        · rw [h]; exact h2
      by_cases hk : mediaKind file.filename = "image"
      · obtain ⟨extA, hA2, -, -, hAok⟩ := annotate_trace env
          (saveToGCS env [.uuidNew] file.content (env.uuidNew [])).2 (gsUri (env.uuidNew []))
        cases ha : (annotate env (saveToGCS env [.uuidNew] file.content (env.uuidNew [])).2
            (gsUri (env.uuidNew []))).1 with
        | error err =>
          rw [handlerPost_score_failed env r username file link err hm hu hf hs hk ha] at hok
          simp [httpError] at hok
        | ok score =>
          have htr := key _ score
            (handlerPost_scored env r username file link score hm hu hf hs hk ha)
          rw [hA2, hAok score ha, hS] at htr
          simp only at htr
          refine ⟨username, link, score, rfl, hS, by simpa using hattrs, ?_, ?_, ?_, ?_, rfl,
            fun h => h⟩
          · rw [htr, if_pos hk]
          · rw [htr]
            simp [putCalls, scoreCalls, upsertCalls, List.filter, Call.isStore]
          · rw [htr]
            simp [putCalls, scoreCalls, upsertCalls, List.filter, Call.isIndexWrite]
          · simp [gsUri, BUCKET_NAME]
      · have htr := key _ 0 (handlerPost_not_image env r username file link hm hu hf hs hk)
        rw [hS] at htr
        simp only at htr
        refine ⟨username, link, 0, rfl, hS, by simpa using hattrs, ?_, ?_, ?_, ?_, rfl,
          fun h => h⟩
        · rw [htr, if_neg hk]; simp
        · rw [htr]
          simp [putCalls, upsertCalls, List.filter, Call.isStore]
        · rw [htr]
          simp [putCalls, upsertCalls, List.filter, Call.isIndexWrite]
        · simp [gsUri, BUCKET_NAME]

/-! ## Queries: the claims on `handlerCluster` and `handlerSearch` -/

theorem foldl_goAppend_elems {α : Type} (l : List α) (s : Slice α) :
    (l.foldl (fun posts p => goAppend posts p) s).elems = s.elems ++ l := by
  induction l generalizing s with
  | nil => simp
  | cons x rest ih =>
    rw [List.foldl_cons, ih]
    cases s <;> simp [goAppend, Slice.elems]

theorem getPostFromSearchResult_elems (env : Env) (sr : SearchResult) :
    (getPostFromSearchResult env sr).elems = Each zeroPost env.unmarshalPost sr := by
  unfold getPostFromSearchResult
  rw [foldl_goAppend_elems]
  simp [Slice.elems]

/-- With no item to append the result stays the nil slice, which `json.Marshal` encodes as
`null`. -/
theorem getPostFromSearchResult_nil (env : Env) (sr : SearchResult)
    (h : Each zeroPost env.unmarshalPost sr = []) :
    getPostFromSearchResult env sr = none ∧
      jsonMarshal env (getPostFromSearchResult env sr) = .ok "null" := by
  have h1 : getPostFromSearchResult env sr = none := by
    unfold getPostFromSearchResult
    rw [h]
    rfl
  exact ⟨h1, by rw [h1]; rfl⟩

theorem threshold_selects (p : Post) :
    ((NewRangeQuery "face").Gte (9 / 10)).selects p = decide ((9 : Num) / 10 ≤ p.face) := by
  simp [NewRangeQuery, Query.Gte, Query.selects, inRange]

/-- C6: for every term the threshold search builds one range predicate on the field the caller
named, with the inclusive lower bound 0.9 and no upper bound, and hands it to the post index:
the external calls of `handlerCluster` are those of one `readFromES` with that predicate.
When the index answers the predicate on `face` with exactly the stored posts that satisfy it,
the posts returned are exactly the stored posts with `face >= 0.9`: a post with `face` 0.9 is
among them and one with `face` 0.8999 is not, and they are what the reply encodes. -/
theorem handlerCluster_threshold (env : Env) (method : String) (hm : method ≠ "OPTIONS") :
    (∀ term : String,
      (handlerCluster env ⟨method, term⟩).2 =
        (readFromES env [] (.range term (some (9 / 10)) none true true) POST_INDEX).2 ∧
      (env.esNewClient [] ES_URL = none →
        (handlerCluster env ⟨method, term⟩).2 =
          [.esNewClient ES_URL,
            .esSearch POST_INDEX (.range term (some (9 / 10)) none true true)]) ∧
      (∀ index q, Call.esSearch index q ∈ (handlerCluster env ⟨method, term⟩).2 →
        index = POST_INDEX ∧ q = .range term (some (9 / 10)) none true true)) ∧
    (∀ (stored : List Post) (sr : SearchResult),
      env.esNewClient [] ES_URL = none →
      env.esSearch [.esNewClient ES_URL] POST_INDEX ((NewRangeQuery "face").Gte (9 / 10)) =
        .ok sr →
      Each zeroPost env.unmarshalPost sr =
        stored.filter ((NewRangeQuery "face").Gte (9 / 10)).selects →
      (getPostFromSearchResult env sr).elems =
          stored.filter (fun p => decide ((9 : Num) / 10 ≤ p.face)) ∧
        (∀ p, p ∈ (getPostFromSearchResult env sr).elems ↔
          p ∈ stored ∧ (9 : Num) / 10 ≤ p.face) ∧
        (∀ p ∈ stored, p.face = 9 / 10 → p ∈ (getPostFromSearchResult env sr).elems) ∧
        (∀ p, p.face = 8999 / 10000 → p ∉ (getPostFromSearchResult env sr).elems) ∧
        (∀ js, jsonMarshal env (getPostFromSearchResult env sr) = .ok js →
          (handlerCluster env ⟨method, "face"⟩).1 = Reply.sent 200 js)) := by
  have hshape : ∀ term : String,
      (handlerCluster env ⟨method, term⟩).2 =
        (readFromES env [] (.range term (some (9 / 10)) none true true) POST_INDEX).2 := by
    intro term
    simp only [handlerCluster, hm, if_false, NewRangeQuery, Query.Gte]
    rcases readFromES env [] (.range term (some (9 / 10)) none true true) POST_INDEX
      with ⟨res, tr⟩
    cases res with
    | error e => rfl
    | ok sr =>
      simp only
      split <;> rfl
  refine ⟨?_, ?_⟩
  · intro term
    refine ⟨hshape term, ?_, ?_⟩
    · intro hc
      rw [hshape term]
      simp only [readFromES, hc, List.nil_append]
      split <;> rfl
    · intro index q hq
      rw [hshape term] at hq
      simp only [readFromES, List.nil_append] at hq
      split at hq
      · simp at hq
      · split at hq <;> simpa using hq
  · intro stored sr hc hs hidx
    have helems : (getPostFromSearchResult env sr).elems =
        stored.filter (fun p => decide ((9 : Num) / 10 ≤ p.face)) := by
      rw [getPostFromSearchResult_elems, hidx]
      congr 1
      funext p
      exact threshold_selects p
    refine ⟨helems, ?_, ?_, ?_, ?_⟩
    · intro p
      rw [helems]
      simp [List.mem_filter]
    · intro p hp hface
      rw [helems]
      simp [List.mem_filter, hp, hface]
    · intro p hface
      rw [helems]
      simp only [List.mem_filter, decide_eq_true_eq, hface, not_and]
      intro _
      norm_num
    · intro js hjs
      have hs2 : env.esSearch [.esNewClient ES_URL] POST_INDEX
          (.range "face" (some (9 / 10)) none true true) = .ok sr := by
        simpa [NewRangeQuery, Query.Gte] using hs
      simp [handlerCluster, hm, NewRangeQuery, Query.Gte, readFromES, hc, hs2, hjs, written]

/-! ## Credentials: the claims on `checkUser`, `addUser` and `handlerSignup` -/

theorem passwordMatches_iff (password : String) (l : List User) :
    passwordMatches password l = true ↔ ∃ u ∈ l, u.password = password := by
  induction l with
  | nil => simp [passwordMatches]
  | cons u rest ih =>
    by_cases h : u.password = password
    · simp [passwordMatches, h]
    · simp [passwordMatches, h, ih]

theorem readFromES_trace (env : Env) (tr : Trace) (q : Query) (index : String) :
    ((readFromES env tr q index).2 = tr ++ [.esNewClient ES_URL] ∧
        ∃ err, (readFromES env tr q index).1 = .error err) ∨
      (readFromES env tr q index).2 = tr ++ [.esNewClient ES_URL, .esSearch index q] := by
  simp only [readFromES]
  split
  · left; exact ⟨rfl, _, rfl⟩
  split
  · right; simp
  · right; simp

/-- The three outcomes of `checkUser`, in terms of the result of its read. -/
theorem checkUser_cases (env : Env) (tr : Trace) (username password : String) :
    (checkUser env tr username password).2 =
      (readFromES env tr (.term "username" username) USER_INDEX).2 ∧
    ((checkUser env tr username password).1 = (true, none) ↔
      ∃ sr, (readFromES env tr (.term "username" username) USER_INDEX).1 = .ok sr ∧
        ∃ u ∈ Each zeroUser env.unmarshalUser sr, u.password = password) ∧
    ((checkUser env tr username password).1 = (false, none) ↔
      ∃ sr, (readFromES env tr (.term "username" username) USER_INDEX).1 = .ok sr ∧
        ∀ u ∈ Each zeroUser env.unmarshalUser sr, u.password ≠ password) ∧
    (∀ err, (checkUser env tr username password).1.2 = some err ↔
      (readFromES env tr (.term "username" username) USER_INDEX).1 = .error err) ∧
    (∀ err, (checkUser env tr username password).1.2 = some err →
      (checkUser env tr username password).1.1 = false) := by
  simp only [checkUser, NewTermQuery]
  rcases readFromES env tr (.term "username" username) USER_INDEX with ⟨res, tr2⟩
  cases res with
  | error e => simp
  | ok sr =>
    by_cases h : passwordMatches password (Each zeroUser env.unmarshalUser sr) = true
    · have h2 := (passwordMatches_iff password _).mp h
      simp only [if_pos h]
      refine ⟨trivial, ?_, ?_, ?_, ?_⟩
      · exact ⟨fun _ => ⟨sr, rfl, h2⟩, fun _ => trivial⟩
      · constructor
        · intro hx; simp at hx
        · rintro ⟨sr2, hsr, hall⟩
          simp only [Except.ok.injEq] at hsr
          subst hsr
          obtain ⟨u, hu, hp⟩ := h2
          exact absurd hp (hall u hu)
      · intro err; simp
      · intro err hx; simp at hx
    · have h2 : ¬ ∃ u ∈ Each zeroUser env.unmarshalUser sr, u.password = password :=
        fun hx => h ((passwordMatches_iff password _).mpr hx)
      simp only [if_neg h]
      refine ⟨trivial, ?_, ?_, ?_, ?_⟩
      · constructor
        · intro hx; simp at hx
        · rintro ⟨sr2, hsr, hex⟩
          simp only [Except.ok.injEq] at hsr
          subst hsr
          exact absurd hex h2
      · exact ⟨fun _ => ⟨sr, rfl, fun u hu hp => h2 ⟨u, hu, hp⟩⟩, fun _ => trivial⟩
      · intro err; simp
      · intro err hx; simp at hx

/-- C8: `checkUser` makes one read of the user index with the term predicate on `username`.
It returns `(true, nil)` exactly when that read succeeds and one of the records it returns has
a password equal to the given one; it returns `(false, nil)` exactly when the read succeeds
and no returned record has an equal password; it returns an error exactly when the read
fails, with that error and `false`.  On an index that answers the predicate with exactly the
stored records of that username, `(true, nil)` means that a stored record has both the given
username and the given password, and `(false, nil)` that none has. -/
theorem checkUser_spec (env : Env) (tr : Trace) (username password : String) :
    (checkUser env tr username password).2 =
      (readFromES env tr (.term "username" username) USER_INDEX).2 ∧
    ((checkUser env tr username password).1 = (true, none) ↔
      ∃ sr, (readFromES env tr (.term "username" username) USER_INDEX).1 = .ok sr ∧
        ∃ u ∈ Each zeroUser env.unmarshalUser sr, u.password = password) ∧
    ((checkUser env tr username password).1 = (false, none) ↔
      ∃ sr, (readFromES env tr (.term "username" username) USER_INDEX).1 = .ok sr ∧
        ∀ u ∈ Each zeroUser env.unmarshalUser sr, u.password ≠ password) ∧
    (∀ err, (checkUser env tr username password).1.2 = some err ↔
      (readFromES env tr (.term "username" username) USER_INDEX).1 = .error err) ∧
    (∀ err, (checkUser env tr username password).1.2 = some err →
      (checkUser env tr username password).1.1 = false) ∧
    (∀ (stored : List User) (sr : SearchResult),
      (readFromES env tr (.term "username" username) USER_INDEX).1 = .ok sr →
      Each zeroUser env.unmarshalUser sr =
        stored.filter (fun u => decide (u.username = username)) →
      ((checkUser env tr username password).1 = (true, none) ↔
        ∃ u ∈ stored, u.username = username ∧ u.password = password) ∧
      ((checkUser env tr username password).1 = (false, none) ↔
        ∀ u ∈ stored, u.username = username → u.password ≠ password)) := by
  obtain ⟨h1, h2, h3, h4, h5⟩ := checkUser_cases env tr username password
  refine ⟨h1, h2, h3, h4, h5, ?_⟩
  intro stored sr hr hidx
  constructor
  · rw [h2]
    constructor
    · rintro ⟨sr2, hsr, u, hu, hp⟩
      rw [hr] at hsr
      simp only [Except.ok.injEq] at hsr
      subst hsr
      rw [hidx, List.mem_filter] at hu
      exact ⟨u, hu.1, by simpa using hu.2, hp⟩
    · rintro ⟨u, hu, hn, hp⟩
      refine ⟨sr, hr, u, ?_, hp⟩
      rw [hidx, List.mem_filter]
      exact ⟨hu, by simpa using hn⟩
  · rw [h3]
    constructor
    · rintro ⟨sr2, hsr, hall⟩ u hu hn
      rw [hr] at hsr
      simp only [Except.ok.injEq] at hsr
      subst hsr
      apply hall u
      rw [hidx, List.mem_filter]
      exact ⟨hu, by simpa using hn⟩
    · intro hall
      refine ⟨sr, hr, ?_⟩
      intro u hu
      rw [hidx, List.mem_filter] at hu
      exact hall u hu.1 (by simpa using hu.2)

/-- C9: when the read of the user index for the record's username reports at least one hit,
`addUser` returns `(false, nil)` after that read and makes no index write.  When the read
fails it makes no write either.  Any write it makes is into the user index, under the
username, of the record itself, and only after a read that reported zero hits. -/
theorem addUser_existing_untouched (env : Env) (user : User) :
    (∀ tr sr, (readFromES env tr (.term "username" user.username) USER_INDEX).1 = .ok sr →
      0 < sr.TotalHits →
      addUser env tr user =
        ((false, none),
          tr ++ [.esNewClient ES_URL, .esSearch USER_INDEX (.term "username" user.username)])) ∧
    (∀ tr err, (readFromES env tr (.term "username" user.username) USER_INDEX).1 = .error err →
      addUser env tr user =
        ((false, some err), (readFromES env tr (.term "username" user.username) USER_INDEX).2) ∧
      ∀ c ∈ (addUser env tr user).2, c ∈ tr ∨ c.isIndexWrite = false) ∧
    (∀ index id doc, Call.esIndex index id doc ∈ (addUser env [] user).2 →
      (∃ sr, (readFromES env [] (.term "username" user.username) USER_INDEX).1 = .ok sr ∧
        sr.TotalHits = 0) ∧
      index = USER_INDEX ∧ id = user.username ∧ doc = .user user) := by
  refine ⟨?_, ?_, ?_⟩
  · intro tr sr hr hpos
    rcases readFromES_trace env tr (.term "username" user.username) USER_INDEX
      with ⟨-, e, he⟩ | h2
    · rw [he] at hr; simp at hr
    · simp only [addUser, NewTermQuery]
      rcases hR : readFromES env tr (.term "username" user.username) USER_INDEX with ⟨res, tr2⟩
      rw [hR] at hr h2
      simp only at hr h2
      subst hr
      subst h2
      simp [hpos]
  · intro tr err hr
    have h1 : addUser env tr user =
        ((false, some err),
          (readFromES env tr (.term "username" user.username) USER_INDEX).2) := by
      simp only [addUser, NewTermQuery]
      rcases hR : readFromES env tr (.term "username" user.username) USER_INDEX with ⟨res, tr2⟩
      rw [hR] at hr
      simp only at hr
      subst hr
      rfl
    refine ⟨h1, ?_⟩
    rw [h1]
    intro c hc
    simp only at hc
    rcases readFromES_trace env tr (.term "username" user.username) USER_INDEX
      with ⟨h2, -⟩ | h2
    · rw [h2] at hc
      simp only [List.mem_append, List.mem_singleton] at hc
      rcases hc with h | h
      · exact Or.inl h
      · right; subst h; rfl
    · rw [h2] at hc
      simp only [List.mem_append, List.mem_cons, List.mem_nil_iff, or_false] at hc
      rcases hc with h | h | h
      · exact Or.inl h
      · right; subst h; rfl
      · right; subst h; rfl
  · intro index id doc hc
    simp only [addUser, NewTermQuery] at hc
    have hT := readFromES_trace env [] (.term "username" user.username) USER_INDEX
    rcases hR : readFromES env [] (.term "username" user.username) USER_INDEX with ⟨res, tr2⟩
    rw [hR] at hc hT
    simp only [List.nil_append] at hT
    cases res with
    | error e =>
      simp only at hc
      rcases hT with ⟨h2, -⟩ | h2 <;> (subst h2; simp at hc)
    | ok sr =>
      simp only at hc
      by_cases hpos : sr.TotalHits > 0
      · simp only [hpos, if_true] at hc
        rcases hT with ⟨h2, -⟩ | h2 <;> (subst h2; simp at hc)
      · simp only [hpos, if_false] at hc
        have hz : sr.TotalHits = 0 := by omega
        refine ⟨⟨sr, rfl, hz⟩, ?_⟩
        have hmem : Call.esIndex index id doc ∈
            (saveToES env tr2 (.user user) USER_INDEX user.username).2 := by
          rcases hE : saveToES env tr2 (.user user) USER_INDEX user.username with ⟨e, tr3⟩
          rw [hE] at hc
          cases e <;> simpa using hc
        rcases saveToES_trace env tr2 (.user user) USER_INDEX user.username with ⟨h3, -⟩ | h3
        · rw [h3] at hmem
          rcases hT with ⟨h2, -⟩ | h2 <;> (subst h2; simp at hmem)
        · rw [h3] at hmem
          rcases hT with ⟨h2, -⟩ | h2 <;>
            (subst h2; simp [upsertCalls] at hmem; exact ⟨hmem.1, hmem.2.1, hmem.2.2⟩)

theorem matchFrom_usernamePattern_inner (s : List Char) :
    matchFrom usernamePattern false s = false := by
  induction s with
  | nil => simp [matchFrom, matchHere, usernamePattern]
  | cons c rest ih => simp only [matchFrom, ih]; simp [matchHere, usernamePattern]

/-- The pattern `^[a-z0-9]$` matches exactly the one-character strings whose character is a
lower-case letter or a digit. -/
theorem MatchString_usernamePattern (s : String) :
    MatchString usernamePattern s = true ↔
      ∃ c : Char, s = String.singleton c ∧ (('a' ≤ c ∧ c ≤ 'z') ∨ ('0' ≤ c ∧ c ≤ '9')) := by
  unfold MatchString
  rcases s with ⟨l⟩
  cases l with
  | nil =>
    simp only [matchFrom, matchHere, usernamePattern]
    constructor
    · intro h; simp at h
    · rintro ⟨c, hc, -⟩
      have := congrArg String.data hc
      simp [String.singleton, String.push] at this
  | cons c rest =>
    simp only [matchFrom, matchFrom_usernamePattern_inner, Bool.or_false]
    cases rest with
    | nil =>
      simp only [matchHere, usernamePattern, Bool.true_and, List.isEmpty_nil, Bool.and_true,
        List.any_cons, List.any_nil, Bool.or_false, Bool.or_eq_true, Bool.and_eq_true,
        decide_eq_true_eq]
      constructor
      · intro h; exact ⟨c, rfl, h⟩
      · rintro ⟨d, hd, h⟩
        have := congrArg String.data hd
        simp [String.singleton, String.push] at this
        subst this
        exact h
    | cons d rest2 =>
      simp only [matchHere, usernamePattern, List.isEmpty_cons, Bool.false_and, Bool.and_false]
      constructor
      · intro h; simp at h
      · rintro ⟨e, he, -⟩
        have := congrArg String.data he
        simp [String.singleton, String.push] at this

/-- C10: for a decoded signup body and a method other than `OPTIONS`, `handlerSignup` answers
400 `Invalid username or password` without calling `addUser` exactly when the username is
empty, or the password is empty, or the username is one character in `a-z` or `0-9`.  In every
other case the request reaches `addUser`, whose outcome decides the reply; that holds in
particular for every username of two or more characters with a non-empty password. -/
theorem handlerSignup_validation (env : Env) (method : String) (user : User)
    (hm : method ≠ "OPTIONS") :
    ((user.username = "" ∨ user.password = "" ∨
        ∃ c : Char, user.username = String.singleton c ∧
          (('a' ≤ c ∧ c ≤ 'z') ∨ ('0' ≤ c ∧ c ≤ '9'))) →
      handlerSignup env ⟨method, .ok user⟩ =
        (Reply.sent 400 "Invalid username or password\n", [])) ∧
    (¬ (user.username = "" ∨ user.password = "" ∨
        ∃ c : Char, user.username = String.singleton c ∧
          (('a' ≤ c ∧ c ≤ 'z') ∨ ('0' ≤ c ∧ c ≤ '9'))) →
      handlerSignup env ⟨method, .ok user⟩ =
        (match (addUser env [] user).1 with
          | (_, some _) => Reply.sent 500 "Failed to save user to Elasticsearch\n"
          | (false, none) => Reply.sent 400 "User already exists\n"
          | (true, none) => Reply.sent 200 "",
         (addUser env [] user).2) ∧
      (handlerSignup env ⟨method, .ok user⟩).2 ≠ [] ∧
      (handlerSignup env ⟨method, .ok user⟩).1 ≠
        Reply.sent 400 "Invalid username or password\n") ∧
    (2 ≤ user.username.length → user.password ≠ "" →
      (handlerSignup env ⟨method, .ok user⟩).2 = (addUser env [] user).2 ∧
      (handlerSignup env ⟨method, .ok user⟩).2 ≠ []) := by
  have haddne : (addUser env [] user).2 ≠ [] := by
    simp only [addUser, NewTermQuery]
    rcases readFromES_trace env [] (.term "username" user.username) USER_INDEX
      with ⟨h2, -⟩ | h2
    all_goals
      rcases hR : readFromES env [] (.term "username" user.username) USER_INDEX with ⟨res, tr2⟩
      rw [hR] at h2
      simp only [List.nil_append] at h2
      subst h2
      cases res with
      | error e => simp
      | ok sr =>
        simp only
        split
        · simp
        · rcases saveToES_trace env _ (.user user) USER_INDEX user.username with ⟨h3, -⟩ | h3
          all_goals
            rcases hE : saveToES env _ (.user user) USER_INDEX user.username with ⟨e, tr3⟩
            rw [hE] at h3
            simp only at h3
            subst h3
            cases e <;> simp
  have hpass : ¬ (user.username = "" ∨ user.password = "" ∨
        ∃ c : Char, user.username = String.singleton c ∧
          (('a' ≤ c ∧ c ≤ 'z') ∨ ('0' ≤ c ∧ c ≤ '9'))) →
      handlerSignup env ⟨method, .ok user⟩ =
        (match (addUser env [] user).1 with
          | (_, some _) => Reply.sent 500 "Failed to save user to Elasticsearch\n"
          | (false, none) => Reply.sent 400 "User already exists\n"
          | (true, none) => Reply.sent 200 "",
         (addUser env [] user).2) := by
    intro h
    rw [← MatchString_usernamePattern] at h
    simp only [handlerSignup, hm, if_false, h]
    rcases addUser env [] user with ⟨⟨b, e⟩, tr⟩
    cases e with
    | some e => simp [httpError]
    | none => cases b <;> simp [httpError, noContent]
  refine ⟨?_, ?_, ?_⟩
  · intro h
    rw [← MatchString_usernamePattern] at h
    simp [handlerSignup, hm, h, httpError]
  · intro h
    have h1 := hpass h
    refine ⟨h1, ?_, ?_⟩
    · rw [h1]; exact haddne
    · rw [h1]
      simp only
      rcases (addUser env [] user).1 with ⟨b, e⟩
      cases e with
      | some e => simp
      | none => cases b <;> simp
  · intro hlen hpw
    have h : ¬ (user.username = "" ∨ user.password = "" ∨
        ∃ c : Char, user.username = String.singleton c ∧
          (('a' ≤ c ∧ c ≤ 'z') ∨ ('0' ≤ c ∧ c ≤ '9'))) := by
      rintro (h | h | ⟨c, hc, -⟩)
      · rw [h] at hlen; simp at hlen
      · exact hpw h
      · rw [hc] at hlen; simp [String.singleton, String.length, String.push] at hlen
    have h1 := hpass h
    rw [h1]
    exact ⟨rfl, haddne⟩

/-! ## Witnesses at concrete inputs -/

/-- A `POST` by `alice` without a file. -/
theorem handlerPost_media_required_witness :
    "POST" ≠ "OPTIONS" ∧
      handlerPost quietEnv ⟨"POST", some "alice", "37.7", "-122.4", "hello", none⟩ =
        (Reply.sent 400 "Image is not available\n", []) :=
  ⟨by decide,
    (handlerPost_media_required quietEnv "POST" "alice" "37.7" "-122.4" "hello" (by decide)).1⟩

/-- The image submission when the store, respectively the scoring service, is down. -/
theorem handlerPost_failure_aborts_witness :
    imagePost.method ≠ "OPTIONS" ∧
      handlerPost storeDownEnv imagePost =
        (Reply.sent 500 "Failed to save image to GCS\n", [.uuidNew, .storageNewClient]) ∧
      handlerPost visionDownEnv imagePost =
        (Reply.sent 500 "Failed to annotate image\n",
          [Call.uuidNew] ++ putCalls "id-1" [1, 2, 3] ++ [.visionNewClient]) :=
  ⟨by decide,
    ((handlerPost_failure_aborts storeDownEnv imagePost "alice" ⟨[1, 2, 3], "cat.png"⟩
      (by decide) rfl rfl).1 "storage: no credentials" rfl).1,
    ((handlerPost_failure_aborts visionDownEnv imagePost "alice" ⟨[1, 2, 3], "cat.png"⟩
      (by decide) rfl rfl).2.1 "https://storage.example/jiawei-bucket/id-1"
      "vision: unavailable" rfl (by decide) rfl).1⟩

/-- An image is scored, a video is not, and no face gives the score 0. -/
theorem scorer_exactly_for_images_witness :
    imagePost.method ≠ "OPTIONS" ∧
      Call.visionNewClient ∈ (handlerPost faceEnv imagePost).2 ∧
      (∀ c ∈ (handlerPost faceEnv videoPost).2, c.isScorer = false) ∧
      annotate quietEnv [] "gs://jiawei-bucket/id-1" =
        (.ok 0, [] ++ scoreCalls "gs://jiawei-bucket/id-1") :=
  ⟨by decide,
    ((scorer_exactly_for_images faceEnv imagePost "alice" ⟨[1, 2, 3], "cat.png"⟩
      (by decide) rfl rfl).2.1 (by decide)).1
      "https://storage.example/jiawei-bucket/id-1" rfl,
    ((scorer_exactly_for_images faceEnv videoPost "alice" ⟨[1, 2, 3], "clip.mp4"⟩
      (by decide) rfl rfl).1 (by decide)).1,
    (scorer_exactly_for_images quietEnv imagePost "alice" ⟨[1, 2, 3], "cat.png"⟩
      (by decide) rfl rfl).2.2.1 [] "gs://jiawei-bucket/id-1" rfl rfl⟩

/-- The image submission in a world where every call succeeds. -/
theorem handlerPost_success_witness :
    imagePost.method ≠ "OPTIONS" ∧
      (handlerPost faceEnv imagePost).1 = Reply.sent 200 "" ∧
      (handlerPost faceEnv imagePost).2.filter Call.isStore = putCalls "id-1" [1, 2, 3] := by
  refine ⟨by decide, by decide, ?_⟩
  obtain ⟨_, _, _, _, _, _, _, h, _⟩ :=
    handlerPost_success faceEnv imagePost ⟨[1, 2, 3], "cat.png"⟩ (by decide) rfl (by decide)
  exact h

/-- The threshold search on an index holding a post with `face` 0.9 and one with 0.8999. -/
theorem handlerCluster_threshold_witness :
    "GET" ≠ "OPTIONS" ∧
      (getPostFromSearchResult clusterEnv ⟨1, [⟨some "p1"⟩]⟩).elems =
        [samplePost (9 / 10), samplePost (8999 / 10000)].filter
          (fun p => decide ((9 : Num) / 10 ≤ p.face)) := by
  have h1 : ((NewRangeQuery "face").Gte (9 / 10)).selects (samplePost (9 / 10)) = true := by
    rw [threshold_selects]; simp [samplePost]
  have h2 : ((NewRangeQuery "face").Gte (9 / 10)).selects (samplePost (8999 / 10000)) =
      false := by
    rw [threshold_selects]; simp [samplePost]; norm_num
  exact ⟨by decide,
    ((handlerCluster_threshold clusterEnv "GET" (by decide)).2
      [samplePost (9 / 10), samplePost (8999 / 10000)] ⟨1, [⟨some "p1"⟩]⟩ rfl rfl
      (by simp [List.filter, h1, h2, Each, clusterEnv])).1⟩

/-- The username `a` is rejected, the username `A b!` reaches `addUser`. -/
theorem handlerSignup_validation_witness :
    "POST" ≠ "OPTIONS" ∧
      handlerSignup quietEnv ⟨"POST", .ok ⟨"a", "pw", 30, "f"⟩⟩ =
        (Reply.sent 400 "Invalid username or password\n", []) ∧
      (handlerSignup quietEnv ⟨"POST", .ok ⟨"A b!", "pw", 30, "f"⟩⟩).2 =
        (addUser quietEnv [] ⟨"A b!", "pw", 30, "f"⟩).2 :=
  ⟨by decide,
    (handlerSignup_validation quietEnv "POST" ⟨"a", "pw", 30, "f"⟩ (by decide)).1
      (Or.inr (Or.inr ⟨'a', rfl, Or.inl ⟨by decide, by decide⟩⟩)),
    ((handlerSignup_validation quietEnv "POST" ⟨"A b!", "pw", 30, "f"⟩ (by decide)).2.2
      (by decide) (by decide)).1⟩

/-- `checkUser` on an index holding `alice`: the right password gives `(true, nil)`, a wrong
one `(false, nil)`. -/
theorem checkUser_spec_witness :
    (checkUser userEnv [] "alice" "secret").1 = (true, none) ∧
      (checkUser userEnv [] "alice" "guess").1 = (false, none) :=
  ⟨((checkUser_spec userEnv [] "alice" "secret").2.2.2.2.2 [alice] ⟨1, [⟨some "u1"⟩]⟩ rfl
      (by decide)).1.mpr ⟨alice, by decide, rfl, rfl⟩,
    ((checkUser_spec userEnv [] "alice" "guess").2.2.2.2.2 [alice] ⟨1, [⟨some "u1"⟩]⟩ rfl
      (by decide)).2.mpr (by decide)⟩

/-- `addUser` for a username the index already holds: `(false, nil)` after the read alone. -/
theorem addUser_existing_untouched_witness :
    addUser userEnv [] ⟨"alice", "other", 41, "m"⟩ =
      ((false, none),
        [] ++ [.esNewClient ES_URL, .esSearch USER_INDEX (.term "username" "alice")]) :=
  (addUser_existing_untouched userEnv ⟨"alice", "other", 41, "m"⟩).1 []
    ⟨1, [⟨some "u1"⟩]⟩ rfl (by decide)

/-! ## The reply of a query that matches nothing -/

theorem handlerSearch_no_match (env : Env) (r : SearchRequest) (sr : SearchResult)
    (hm : r.method ≠ "OPTIONS") (hr : (readFromES env []
      (NewGeoDistanceQuery "location" (if r.range ≠ "" then r.range ++ "km" else DISTANCE)
        (env.parseFloat r.lat) (env.parseFloat r.lon)) POST_INDEX).1 = .ok sr)
    (he : Each zeroPost env.unmarshalPost sr = []) :
    (handlerSearch env r).1 = Reply.sent 200 "null" := by
  simp only [handlerSearch, hm, if_false]
  rcases hR : readFromES env []
      (NewGeoDistanceQuery "location" (if r.range ≠ "" then r.range ++ "km" else DISTANCE)
        (env.parseFloat r.lat) (env.parseFloat r.lon)) POST_INDEX with ⟨res, tr⟩
  rw [hR] at hr
  simp only at hr
  subst hr
  simp [(getPostFromSearchResult_nil env sr he).2, written]

theorem handlerCluster_no_match (env : Env) (r : ClusterRequest) (sr : SearchResult)
    (hm : r.method ≠ "OPTIONS")
    (hr : (readFromES env [] ((NewRangeQuery r.term).Gte (9 / 10)) POST_INDEX).1 = .ok sr)
    (he : Each zeroPost env.unmarshalPost sr = []) :
    (handlerCluster env r).1 = Reply.sent 200 "null" := by
  simp only [handlerCluster, hm, if_false]
  rcases hR : readFromES env [] ((NewRangeQuery r.term).Gte (9 / 10)) POST_INDEX with ⟨res, tr⟩
  rw [hR] at hr
  simp only at hr
  subst hr
  simp [(getPostFromSearchResult_nil env sr he).2, written]

/-- C7: on an index that answers every search successfully with no hit, the radius query
and the threshold query are both answered with status 200, `getPostFromSearchResult` yields
the nil slice (no elements), and the body is the JSON value `null`, not the empty array
`[]`; an empty non-nil slice would have been encoded as `[]`. -/
theorem empty_result_body_is_null :
    handlerSearch quietEnv ⟨"GET", "37.7", "-122.4", "5"⟩ =
        (Reply.sent 200 "null",
          [.esNewClient ES_URL,
            .esSearch POST_INDEX (.geoDistance "location" "5km" (377 / 10) (-1224 / 10))]) ∧
      handlerCluster quietEnv ⟨"GET", "face"⟩ =
        (Reply.sent 200 "null",
          [.esNewClient ES_URL,
            .esSearch POST_INDEX (.range "face" (some (9 / 10)) none true true)]) ∧
      getPostFromSearchResult quietEnv ⟨0, []⟩ = none ∧
      (getPostFromSearchResult quietEnv ⟨0, []⟩).elems = [] ∧
      jsonMarshal quietEnv (some []) = .ok "[]" ∧
      "null" ≠ "[]" := by
  refine ⟨?_, ?_, rfl, rfl, rfl, by decide⟩
  · rfl
  · rfl

end Around
